import Mathlib

set_option maxRecDepth 8000
set_option maxHeartbeats 2000000

/-
Shallow embedding of the gin-chat-room real-time messaging core:
the Hub registry (internal/services/hub.go), the presence cache client
(internal/services/redis.go), the websocket frame handlers
(internal/websocket/websocket.go) and the attach endpoint
(internal/handlers/websocket.go).

Go pointers to Client structs are modelled as numeric client ids (cid)
whose mutable struct contents live in the `conns` association list.
Go maps are modelled as association lists with unique keys; Go map
iteration is modelled as iteration in list order.  The bounded Send
channel of capacity 256 is a list of frames plus a closed flag.
The external collaborators (GORM database, Redis) are modelled by the
db* fields, the `presence` and `cache` fields, and the `redisAvail`
flag (RedisClient == nil is redisAvail = false).  Broadcast emissions
(calls to Hub.broadcastToRoom) are recorded most-recent-first in `log`.
-/

namespace ChatRoom

/-- models.Message restricted to the fields the core writes
(kind is always text in handleChatMessage). -/
structure ChatRec where
  id : Nat
  roomID : Nat
  userID : Nat
  content : String
deriving Repr, DecidableEq

/-- Payload of an outbound WebSocketMessage (the Data field). -/
inductive WSData where
  | empty
  | user (uid : Nat)
  | uid (u : Nat)
  | users (ids : List Nat)
  | record (m : ChatRec)
deriving Repr, DecidableEq

/-- services.WebSocketMessage. -/
structure WSMessage where
  type : String
  roomID : Nat
  content : String := ""
  data : WSData := .empty
deriving Repr, DecidableEq

/-- The mutable part of a services.Client: its immutable UserID, its
mutable RoomID, and its Send channel (queue contents plus closed flag). -/
structure Conn where
  userID : Nat
  roomID : Nat
  queue : List WSMessage
  closed : Bool
deriving Repr, DecidableEq

/-- Capacity of the Send channel (make(chan []byte, 256)). -/
def sendCap : Nat := 256

/-- The whole observable system: the Hub registry maps, the heap of
Client structs, the Redis-backed presence and message cache, the
database tables the handlers touch, and a log of broadcast emissions. -/
structure SystemState where
  clients : List Nat
  rooms : List (Nat × List Nat)
  users : List (Nat × Nat)
  conns : List (Nat × Conn)
  redisAvail : Bool
  presence : List (Nat × Nat)
  cache : List (Nat × List ChatRec)
  dbUsers : List Nat
  dbRooms : List Nat
  dbMembers : List (Nat × Nat)
  dbMessages : List ChatRec
  nextMsgID : Nat
  log : List (Nat × WSMessage)
deriving Repr, DecidableEq

/-- Association-list lookup (Go map read). -/
def lookupA {α : Type} : List (Nat × α) → Nat → Option α
  | [], _ => none
  | (k, v) :: t, k' => if k = k' then some v else lookupA t k'

/-- Association-list store (Go map write): replace the entry if the key
is present, append otherwise. -/
def setA {α : Type} : List (Nat × α) → Nat → α → List (Nat × α)
  | [], k, v => [(k, v)]
  | (k', v') :: t, k, v => if k' = k then (k, v) :: t else (k', v') :: setA t k v

/-- Association-list delete (Go map delete). -/
def eraseA {α : Type} : List (Nat × α) → Nat → List (Nat × α)
  | [], _ => []
  | (k', v') :: t, k => if k' = k then t else (k', v') :: eraseA t k

/-- The member list stored for a room (empty when the key is absent). -/
def listAt {α : Type} (l : List (Nat × List α)) (k : Nat) : List α :=
  (lookupA l k).getD []

/-- Outbound frame built by Hub.notifyUserJoined. -/
def userJoinedMsg (r u : Nat) : WSMessage :=
  { type := "user_joined", roomID := r, data := .user u }

/-- Outbound frame built by Hub.notifyUserLeft. -/
def userLeftMsg (r u : Nat) : WSMessage :=
  { type := "user_left", roomID := r, data := .uid u }

/-- Outbound frame built by Hub.sendOnlineUsers. -/
def onlineUsersMsg (r : Nat) (ids : List Nat) : WSMessage :=
  { type := "online_users", roomID := r, data := .users ids }

/-- Outbound frame built by handleChatMessage for broadcast. -/
def chatMsg (r : Nat) (m : ChatRec) : WSMessage :=
  { type := "message", roomID := r, data := .record m }

/-- services.SetUserOnline: no-op when RedisClient is nil, otherwise
store the user's presence entry keyed by user id. -/
def SetUserOnline (s : SystemState) (uid r : Nat) : SystemState :=
  if s.redisAvail then { s with presence := setA s.presence uid r } else s

/-- services.SetUserOffline: no-op when RedisClient is nil, otherwise
delete the user's presence entry. -/
def SetUserOffline (s : SystemState) (uid : Nat) : SystemState :=
  if s.redisAvail then { s with presence := eraseA s.presence uid } else s

/-- services.GetOnlineUsers: with no Redis client return an empty list
and no error; otherwise scan every presence entry and collect the user
ids whose entry carries the requested room id. -/
def GetOnlineUsers (avail : Bool) (presence : List (Nat × Nat)) (r : Nat) :
    Except String (List Nat) :=
  if avail then
    .ok (presence.foldl (fun acc e => if e.2 == r then acc ++ [e.1] else acc) [])
  else
    .ok []

/-- services.CacheMessage: no-op when RedisClient is nil, otherwise
LPush the record onto the room's recent-message list and LTrim to the
100 most recent. -/
def CacheMessage (s : SystemState) (r : Nat) (m : ChatRec) : SystemState :=
  if s.redisAvail then
    { s with cache := setA s.cache r ((m :: listAt s.cache r).take 100) }
  else s

/-- The select-with-default enqueue attempt inside Hub.broadcastToRoom.
A send that would block (queue full, or channel closed) takes the
default branch: close the Send channel, delete the client from
h.clients and from the room's member set (h.rooms and h.users keep
whatever else they held). -/
def tryEnqueue (st : SystemState) (cid : Nat) (m : WSMessage) (r : Nat) : SystemState :=
  match lookupA st.conns cid with
  | none => st
  | some c =>
    if c.closed = false ∧ c.queue.length < sendCap then
      { st with conns := setA st.conns cid { c with queue := c.queue ++ [m] } }
    else
      { st with
        conns := setA st.conns cid { c with closed := true },
        clients := st.clients.erase cid,
        rooms :=
          (match lookupA st.rooms r with
           | some ms => setA st.rooms r (ms.erase cid)
           | none => st.rooms) }

/-- The fan-out loop of Hub.broadcastToRoom: one enqueue attempt per
member, in member-list order. -/
def fanout (ms : List Nat) (st : SystemState) (m : WSMessage) (r : Nat) : SystemState :=
  ms.foldl (fun st2 cid => tryEnqueue st2 cid m r) st

/-- Hub.broadcastToRoom: record the emission, then, if the room is
indexed, attempt a non-blocking enqueue to each member in turn (Go map
iteration is modelled as member-list order). -/
def broadcastToRoom (s : SystemState) (r : Nat) (m : WSMessage) : SystemState :=
  match lookupA s.rooms r with
  | none => { s with log := (r, m) :: s.log }
  | some ms => fanout ms { s with log := (r, m) :: s.log } m r

/-- Hub.notifyUserJoined: load the user row; when it exists broadcast a
user_joined frame to the client's room. -/
def notifyUserJoined (s : SystemState) (cid : Nat) : SystemState :=
  match lookupA s.conns cid with
  | none => s
  | some c =>
    if c.userID ∈ s.dbUsers then
      broadcastToRoom s c.roomID (userJoinedMsg c.roomID c.userID)
    else s

/-- Hub.sendOnlineUsers: enumerate online users for the client's room,
keep those with a user row, and attempt a direct non-blocking send of
an online_users frame; if the send would block, only close the channel
(no registry removal). -/
def sendOnlineUsers (s : SystemState) (cid : Nat) : SystemState :=
  match lookupA s.conns cid with
  | none => s
  | some c =>
    match GetOnlineUsers s.redisAvail s.presence c.roomID with
    | .error _ => s
    | .ok ids =>
      let shown := ids.filter (fun i => decide (i ∈ s.dbUsers))
      let m := onlineUsersMsg c.roomID shown
      if c.closed = false ∧ c.queue.length < sendCap then
        { s with conns := setA s.conns cid { c with queue := c.queue ++ [m] } }
      else
        { s with conns := setA s.conns cid { c with closed := true } }

/-- Hub.registerClient: install the freshly constructed Client in all
three registry maps, set presence, broadcast user_joined to the room,
and send the online-user list to the new client.  Note that a user id
already present in h.users is silently overwritten. -/
def registerClient (s : SystemState) (cid uid rid : Nat) : SystemState :=
  let s := { s with conns := setA s.conns cid ⟨uid, rid, [], false⟩ }
  let s := { s with clients := if cid ∈ s.clients then s.clients else s.clients ++ [cid] }
  let ms := listAt s.rooms rid
  let s := { s with rooms := setA s.rooms rid (if cid ∈ ms then ms else ms ++ [cid]) }
  let s := { s with users := setA s.users uid cid }
  let s := SetUserOnline s uid rid
  let s := notifyUserJoined s cid
  sendOnlineUsers s cid

/-- Hub.unregisterClient: when the client is registered, remove it from
h.clients, from its room's member set (deleting the room entry if that
empties it), and from h.users; close its Send channel; clear presence;
then broadcast user_left to its room. -/
def unregisterClient (s : SystemState) (cid : Nat) : SystemState :=
  if cid ∈ s.clients then
    match lookupA s.conns cid with
    | none => s
    | some c =>
      let s := { s with clients := s.clients.erase cid }
      let rooms2 :=
        match lookupA s.rooms c.roomID with
        | some ms =>
          let ms2 := ms.erase cid
          if ms2.isEmpty then eraseA s.rooms c.roomID else setA s.rooms c.roomID ms2
        | none => s.rooms
      let s := { s with rooms := rooms2 }
      let s := { s with users := eraseA s.users c.userID }
      let s := { s with conns := setA s.conns cid { c with closed := true } }
      let s := SetUserOffline s c.userID
      broadcastToRoom s c.roomID (userLeftMsg c.roomID c.userID)
  else s

/-- websocket.Connection.handleChatMessage: drop the frame unless the
sender is a member of its current room; otherwise persist a text
ChatRecord, cache it, and hand it to the Hub for fan-out. -/
def handleChatMessage (s : SystemState) (cid : Nat) (content : String) : SystemState :=
  match lookupA s.conns cid with
  | none => s
  | some c =>
    if (c.roomID, c.userID) ∈ s.dbMembers then
      let m : ChatRec := ⟨s.nextMsgID, c.roomID, c.userID, content⟩
      let s := { s with dbMessages := m :: s.dbMessages, nextMsgID := s.nextMsgID + 1 }
      let s := CacheMessage s c.roomID m
      broadcastToRoom s c.roomID (chatMsg c.roomID m)
    else s

/-- websocket.Connection.handleJoinRoom: ignore room id 0 and rooms
absent from the store; otherwise insert a member row if missing, mutate
the client's RoomID in place (without touching the Hub registry), and
refresh presence. -/
def handleJoinRoom (s : SystemState) (cid rid : Nat) : SystemState :=
  if rid = 0 then s
  else
    match lookupA s.conns cid with
    | none => s
    | some c =>
      if rid ∈ s.dbRooms then
        let s :=
          if (rid, c.userID) ∈ s.dbMembers then s
          else { s with dbMembers := (rid, c.userID) :: s.dbMembers }
        let s := { s with conns := setA s.conns cid { c with roomID := rid } }
        SetUserOnline s c.userID rid
      else s

/-- websocket.Connection.handleLeaveRoom: clear presence then unregister. -/
def handleLeaveRoom (s : SystemState) (cid : Nat) : SystemState :=
  match lookupA s.conns cid with
  | none => s
  | some c => unregisterClient (SetUserOffline s c.userID) cid

/-- strconv.ParseUint(str, 10, 32): a non-empty all-decimal-digit string
whose value fits in 32 bits parses to that value, everything else errors. -/
def parseUint32 (str : String) : Option Nat :=
  let cs := str.data
  if cs.isEmpty then none
  else if cs.all (fun ch => ch.isDigit) then
    let n := cs.foldl (fun acc ch => acc * 10 + (ch.toNat - 48)) 0
    if n < 4294967296 then some n else none
  else none

/-- Result of handlers.HandleWebSocket.  Each variant carries the system
state after the request (unchanged on rejection; on success the state
after Hub.RegisterClient) together with the UserID and RoomID of the
Connection that was constructed. -/
inductive AttachResult where
  | unauthorized (s : SystemState)
  | badRequest (s : SystemState)
  | attached (uid rid : Nat) (s : SystemState)
deriving Repr, DecidableEq

/-- handlers.HandleWebSocket: reject unauthenticated requests; default
an absent (empty) room_id query parameter to "1"; reject values that
strconv.ParseUint cannot parse; otherwise build a Client with the
parsed room id and register it (the protocol upgrade is modelled as
always succeeding). -/
def HandleWebSocket (s : SystemState) (auth : Option Nat) (roomParam : String)
    (cid : Nat) : AttachResult :=
  match auth with
  | none => .unauthorized s
  | some uid =>
    let str := if roomParam = "" then "1" else roomParam
    match parseUint32 str with
    | none => .badRequest s
    | some rid => .attached uid rid (registerClient s cid uid rid)

/-- A Hub at process start: empty registry, empty presence and cache,
with the external database holding the given users, rooms and
membership rows. -/
def initState (avail : Bool) (dbU dbR : List Nat) (dbM : List (Nat × Nat)) : SystemState :=
  { clients := [], rooms := [], users := [], conns := [], redisAvail := avail,
    presence := [], cache := [], dbUsers := dbU, dbRooms := dbR, dbMembers := dbM,
    dbMessages := [], nextMsgID := 1, log := [] }

/-- One processed command of the system: a register arriving from the
attach endpoint, an unregister from a pump exit, or an inbound frame
dispatched by a connection's reader. -/
inductive Step : SystemState → SystemState → Prop where
  | register (s : SystemState) (cid uid rid : Nat) : Step s (registerClient s cid uid rid)
  | unregister (s : SystemState) (cid : Nat) : Step s (unregisterClient s cid)
  | chat (s : SystemState) (cid : Nat) (content : String) :
      Step s (handleChatMessage s cid content)
  | join (s : SystemState) (cid rid : Nat) : Step s (handleJoinRoom s cid rid)
  | leave (s : SystemState) (cid : Nat) : Step s (handleLeaveRoom s cid)

/-- States reachable from a process start by processed commands. -/
inductive Reachable : SystemState → Prop where
  | init (avail : Bool) (dbU dbR : List Nat) (dbM : List (Nat × Nat)) :
      Reachable (initState avail dbU dbR dbM)
  | step {s s' : SystemState} : Reachable s → Step s s' → Reachable s'

/-- Spec invariant I1, decidably: every registered client is indexed in
by_room under exactly its current room_id, and by_user maps its user id
back to it. -/
def registryConsistentB (s : SystemState) : Bool :=
  s.clients.all (fun cid =>
    match lookupA s.conns cid with
    | none => false
    | some c =>
      decide (cid ∈ listAt s.rooms c.roomID) && (lookupA s.users c.userID == some cid))

/-- Number of user_left frames among the recorded broadcast emissions. -/
def countUserLeft (l : List (Nat × WSMessage)) : Nat :=
  (l.filter (fun e => e.2.type == "user_left")).length

/-- n chat-message frames with content "x" submitted over client 0. -/
def chatN : Nat → SystemState → SystemState
  | 0, s => s
  | n + 1, s => chatN n (handleChatMessage s 0 "x")

/-! ### Association-list lemmas -/

theorem lookupA_setA_self {α : Type} (l : List (Nat × α)) (k : Nat) (v : α) :
    lookupA (setA l k v) k = some v := by
  induction l with
  | nil => simp [setA, lookupA]
  | cons p t ih =>
    obtain ⟨a, b⟩ := p
    by_cases ha : a = k
    · simp [setA, ha, lookupA]
    · simp [setA, ha, lookupA, ih]

theorem lookupA_setA_ne {α : Type} {l : List (Nat × α)} {k k' : Nat} {v : α}
    (h : k' ≠ k) : lookupA (setA l k v) k' = lookupA l k' := by
  induction l with
  | nil => simp [setA, lookupA, Ne.symm h]
  | cons p t ih =>
    obtain ⟨a, b⟩ := p
    by_cases ha : a = k
    · subst ha; simp [setA, lookupA, Ne.symm h]
    · simp [setA, ha, lookupA, ih]

theorem lookupA_eraseA_ne {α : Type} {l : List (Nat × α)} {k k' : Nat}
    (h : k' ≠ k) : lookupA (eraseA l k) k' = lookupA l k' := by
  induction l with
  | nil => simp [eraseA]
  | cons p t ih =>
    obtain ⟨a, b⟩ := p
    by_cases ha : a = k
    · subst ha; simp [eraseA, lookupA, Ne.symm h]
    · simp [eraseA, ha, lookupA, ih]

theorem lookupA_eq_none {α : Type} {l : List (Nat × α)} {k : Nat}
    (h : k ∉ l.map Prod.fst) : lookupA l k = none := by
  induction l with
  | nil => rfl
  | cons p t ih =>
    obtain ⟨a, b⟩ := p
    simp only [List.map_cons, List.mem_cons] at h
    push_neg at h
    simp [lookupA, Ne.symm h.1, ih h.2]

theorem lookupA_eraseA_self {α : Type} {l : List (Nat × α)} {k : Nat}
    (h : (l.map Prod.fst).Nodup) : lookupA (eraseA l k) k = none := by
  induction l with
  | nil => rfl
  | cons p t ih =>
    obtain ⟨a, b⟩ := p
    simp only [List.map_cons, List.nodup_cons] at h
    by_cases ha : a = k
    · subst ha
      simp only [eraseA, if_pos rfl]
      exact lookupA_eq_none h.1
    · simp [eraseA, ha, lookupA, ih h.2]

theorem listAt_setA_self {α : Type} (l : List (Nat × List α)) (k : Nat) (v : List α) :
    listAt (setA l k v) k = v := by
  simp [listAt, lookupA_setA_self]

theorem listAt_setA_ne {α : Type} {l : List (Nat × List α)} {k k' : Nat} {v : List α}
    (h : k' ≠ k) : listAt (setA l k v) k' = listAt l k' := by
  simp [listAt, lookupA_setA_ne h]

/-! ### One enqueue attempt: what it can and cannot change -/

theorem tryEnqueue_users (st : SystemState) (cid : Nat) (m : WSMessage) (r : Nat) :
    (tryEnqueue st cid m r).users = st.users := by
  unfold tryEnqueue
  split
  · rfl
  · split <;> rfl

theorem tryEnqueue_log (st : SystemState) (cid : Nat) (m : WSMessage) (r : Nat) :
    (tryEnqueue st cid m r).log = st.log := by
  unfold tryEnqueue
  split
  · rfl
  · split <;> rfl

theorem tryEnqueue_presence (st : SystemState) (cid : Nat) (m : WSMessage) (r : Nat) :
    (tryEnqueue st cid m r).presence = st.presence := by
  unfold tryEnqueue
  split
  · rfl
  · split <;> rfl

theorem tryEnqueue_dbMessages (st : SystemState) (cid : Nat) (m : WSMessage) (r : Nat) :
    (tryEnqueue st cid m r).dbMessages = st.dbMessages := by
  unfold tryEnqueue
  split
  · rfl
  · split <;> rfl

theorem tryEnqueue_nextMsgID (st : SystemState) (cid : Nat) (m : WSMessage) (r : Nat) :
    (tryEnqueue st cid m r).nextMsgID = st.nextMsgID := by
  unfold tryEnqueue
  split
  · rfl
  · split <;> rfl

theorem tryEnqueue_cache (st : SystemState) (cid : Nat) (m : WSMessage) (r : Nat) :
    (tryEnqueue st cid m r).cache = st.cache := by
  unfold tryEnqueue
  split
  · rfl
  · split <;> rfl

theorem tryEnqueue_conns_ne {st : SystemState} {cid cid' : Nat} {m : WSMessage} {r : Nat}
    (h : cid' ≠ cid) :
    lookupA (tryEnqueue st cid m r).conns cid' = lookupA st.conns cid' := by
  unfold tryEnqueue
  split
  · rfl
  · split <;> simp [lookupA_setA_ne h]

theorem tryEnqueue_clients_mem {st : SystemState} {cid cid' : Nat} {m : WSMessage} {r : Nat}
    (h : cid' ≠ cid) :
    cid' ∈ (tryEnqueue st cid m r).clients ↔ cid' ∈ st.clients := by
  unfold tryEnqueue
  split
  · exact Iff.rfl
  · split
    · exact Iff.rfl
    · simpa using List.mem_erase_of_ne h

theorem tryEnqueue_clients_nodup {st : SystemState} {cid : Nat} {m : WSMessage} {r : Nat}
    (h : st.clients.Nodup) : (tryEnqueue st cid m r).clients.Nodup := by
  unfold tryEnqueue
  split
  · exact h
  · split
    · exact h
    · simpa using h.erase cid

theorem tryEnqueue_rooms_ne {st : SystemState} {cid : Nat} {m : WSMessage} {r k : Nat}
    (h : k ≠ r) :
    lookupA (tryEnqueue st cid m r).rooms k = lookupA st.rooms k := by
  unfold tryEnqueue
  split
  · rfl
  · split
    · rfl
    · cases hms : lookupA st.rooms r with
      | none => simp [hms]
      | some ms => simp [hms, lookupA_setA_ne h]

theorem tryEnqueue_roomsr_mem {st : SystemState} {cid cid' : Nat} {m : WSMessage} {r : Nat}
    (h : cid' ≠ cid) :
    (cid' ∈ listAt (tryEnqueue st cid m r).rooms r ↔ cid' ∈ listAt st.rooms r) := by
  unfold tryEnqueue
  split
  · exact Iff.rfl
  · split
    · exact Iff.rfl
    · cases hms : lookupA st.rooms r with
      | none => simp [hms]
      | some ms =>
        simp [hms, listAt, lookupA_setA_self]
        exact List.mem_erase_of_ne h

theorem tryEnqueue_roomsr_some {st : SystemState} {cid : Nat} {m : WSMessage} {r : Nat}
    (h : (lookupA st.rooms r).isSome) :
    (lookupA (tryEnqueue st cid m r).rooms r).isSome := by
  unfold tryEnqueue
  split
  · exact h
  · split
    · exact h
    · cases hms : lookupA st.rooms r with
      | none => simp [hms] at h
      | some ms => simp [hms, lookupA_setA_self]

theorem tryEnqueue_roomsr_nodup {st : SystemState} {cid : Nat} {m : WSMessage} {r : Nat}
    (h : (listAt st.rooms r).Nodup) : (listAt (tryEnqueue st cid m r).rooms r).Nodup := by
  unfold tryEnqueue
  split
  · exact h
  · split
    · exact h
    · cases hms : lookupA st.rooms r with
      | none => simpa [hms] using h
      | some ms =>
        unfold listAt at h
        rw [hms] at h
        simp only [Option.getD_some] at h
        simp [listAt, lookupA_setA_self]
        exact h.erase cid

theorem tryEnqueue_roomsr_notmem {st : SystemState} {cid cid' : Nat} {m : WSMessage} {r : Nat}
    (h : cid' ∉ listAt st.rooms r) : cid' ∉ listAt (tryEnqueue st cid m r).rooms r := by
  by_cases hne : cid' = cid
  · subst hne
    unfold tryEnqueue
    split
    · exact h
    · split
      · exact h
      · cases hms : lookupA st.rooms r with
        | none => simpa [hms] using h
        | some ms =>
          simp [listAt, lookupA_setA_self]
          intro hmem
          unfold listAt at h
          rw [hms] at h
          exact h (by simpa using List.mem_of_mem_erase hmem)
  · exact fun hmem => h ((tryEnqueue_roomsr_mem hne).mp hmem)

theorem tryEnqueue_clients_subset {st : SystemState} {cid : Nat} {m : WSMessage} {r : Nat}
    {x : Nat} (hx : x ∈ (tryEnqueue st cid m r).clients) : x ∈ st.clients := by
  revert hx
  unfold tryEnqueue
  split
  · exact id
  · split
    · exact id
    · simpa using fun h => List.mem_of_mem_erase h

/-! ### Fan-out fold lemmas -/

theorem fanout_nil (st : SystemState) (m : WSMessage) (r : Nat) :
    fanout [] st m r = st := rfl

theorem fanout_cons (x : Nat) (t : List Nat) (st : SystemState) (m : WSMessage) (r : Nat) :
    fanout (x :: t) st m r = fanout t (tryEnqueue st x m r) m r := rfl

theorem fanout_append (l1 l2 : List Nat) (st : SystemState) (m : WSMessage) (r : Nat) :
    fanout (l1 ++ l2) st m r = fanout l2 (fanout l1 st m r) m r := by
  unfold fanout
  exact List.foldl_append ..

theorem fanout_users (ms : List Nat) (st : SystemState) (m : WSMessage) (r : Nat) :
    (fanout ms st m r).users = st.users := by
  induction ms generalizing st with
  | nil => rfl
  | cons x t ih => rw [fanout_cons, ih, tryEnqueue_users]

theorem fanout_log (ms : List Nat) (st : SystemState) (m : WSMessage) (r : Nat) :
    (fanout ms st m r).log = st.log := by
  induction ms generalizing st with
  | nil => rfl
  | cons x t ih => rw [fanout_cons, ih, tryEnqueue_log]

theorem fanout_presence (ms : List Nat) (st : SystemState) (m : WSMessage) (r : Nat) :
    (fanout ms st m r).presence = st.presence := by
  induction ms generalizing st with
  | nil => rfl
  | cons x t ih => rw [fanout_cons, ih, tryEnqueue_presence]

theorem fanout_dbMessages (ms : List Nat) (st : SystemState) (m : WSMessage) (r : Nat) :
    (fanout ms st m r).dbMessages = st.dbMessages := by
  induction ms generalizing st with
  | nil => rfl
  | cons x t ih => rw [fanout_cons, ih, tryEnqueue_dbMessages]

theorem fanout_nextMsgID (ms : List Nat) (st : SystemState) (m : WSMessage) (r : Nat) :
    (fanout ms st m r).nextMsgID = st.nextMsgID := by
  induction ms generalizing st with
  | nil => rfl
  | cons x t ih => rw [fanout_cons, ih, tryEnqueue_nextMsgID]

theorem fanout_cache (ms : List Nat) (st : SystemState) (m : WSMessage) (r : Nat) :
    (fanout ms st m r).cache = st.cache := by
  induction ms generalizing st with
  | nil => rfl
  | cons x t ih => rw [fanout_cons, ih, tryEnqueue_cache]

theorem fanout_conns_ne {ms : List Nat} {st : SystemState} {m : WSMessage} {r cid' : Nat}
    (h : cid' ∉ ms) :
    lookupA (fanout ms st m r).conns cid' = lookupA st.conns cid' := by
  induction ms generalizing st with
  | nil => rfl
  | cons x t ih =>
    rw [fanout_cons, ih (fun hm => h (List.mem_cons_of_mem x hm)),
      tryEnqueue_conns_ne (fun he => h (by rw [he]; exact List.mem_cons_self x t))]

theorem fanout_clients_mem {ms : List Nat} {st : SystemState} {m : WSMessage} {r cid' : Nat}
    (h : cid' ∉ ms) :
    (cid' ∈ (fanout ms st m r).clients ↔ cid' ∈ st.clients) := by
  induction ms generalizing st with
  | nil => exact Iff.rfl
  | cons x t ih =>
    rw [fanout_cons, ih (fun hm => h (List.mem_cons_of_mem x hm)),
      tryEnqueue_clients_mem (fun he => h (by rw [he]; exact List.mem_cons_self x t))]

theorem fanout_clients_subset {ms : List Nat} {st : SystemState} {m : WSMessage} {r x : Nat}
    (hx : x ∈ (fanout ms st m r).clients) : x ∈ st.clients := by
  induction ms generalizing st with
  | nil => exact hx
  | cons y t ih => exact tryEnqueue_clients_subset (ih (fanout_cons .. ▸ hx))

theorem fanout_clients_nodup {ms : List Nat} {st : SystemState} {m : WSMessage} {r : Nat}
    (h : st.clients.Nodup) : (fanout ms st m r).clients.Nodup := by
  induction ms generalizing st with
  | nil => exact h
  | cons x t ih => exact fanout_cons .. ▸ ih (tryEnqueue_clients_nodup h)

theorem fanout_rooms_ne {ms : List Nat} {st : SystemState} {m : WSMessage} {r k : Nat}
    (h : k ≠ r) :
    lookupA (fanout ms st m r).rooms k = lookupA st.rooms k := by
  induction ms generalizing st with
  | nil => rfl
  | cons x t ih => rw [fanout_cons, ih, tryEnqueue_rooms_ne h]

theorem fanout_roomsr_mem {ms : List Nat} {st : SystemState} {m : WSMessage} {r cid' : Nat}
    (h : cid' ∉ ms) :
    (cid' ∈ listAt (fanout ms st m r).rooms r ↔ cid' ∈ listAt st.rooms r) := by
  induction ms generalizing st with
  | nil => exact Iff.rfl
  | cons x t ih =>
    rw [fanout_cons, ih (fun hm => h (List.mem_cons_of_mem x hm)),
      tryEnqueue_roomsr_mem (fun he => h (by rw [he]; exact List.mem_cons_self x t))]

theorem fanout_roomsr_some {ms : List Nat} {st : SystemState} {m : WSMessage} {r : Nat}
    (h : (lookupA st.rooms r).isSome) :
    (lookupA (fanout ms st m r).rooms r).isSome := by
  induction ms generalizing st with
  | nil => exact h
  | cons x t ih => exact fanout_cons .. ▸ ih (tryEnqueue_roomsr_some h)

theorem fanout_roomsr_nodup {ms : List Nat} {st : SystemState} {m : WSMessage} {r : Nat}
    (h : (listAt st.rooms r).Nodup) : (listAt (fanout ms st m r).rooms r).Nodup := by
  induction ms generalizing st with
  | nil => exact h
  | cons x t ih => exact fanout_cons .. ▸ ih (tryEnqueue_roomsr_nodup h)

theorem fanout_roomsr_notmem {ms : List Nat} {st : SystemState} {m : WSMessage} {r cid' : Nat}
    (h : cid' ∉ listAt st.rooms r) : cid' ∉ listAt (fanout ms st m r).rooms r := by
  induction ms generalizing st with
  | nil => exact h
  | cons x t ih => exact fanout_cons .. ▸ ih (tryEnqueue_roomsr_notmem h)

/-! ### broadcastToRoom and sendOnlineUsers lemmas -/

theorem broadcast_log (s : SystemState) (r : Nat) (m : WSMessage) :
    (broadcastToRoom s r m).log = (r, m) :: s.log := by
  unfold broadcastToRoom
  split
  · rfl
  · rw [fanout_log]

theorem broadcast_users (s : SystemState) (r : Nat) (m : WSMessage) :
    (broadcastToRoom s r m).users = s.users := by
  unfold broadcastToRoom
  split
  · rfl
  · rw [fanout_users]

theorem broadcast_presence (s : SystemState) (r : Nat) (m : WSMessage) :
    (broadcastToRoom s r m).presence = s.presence := by
  unfold broadcastToRoom
  split
  · rfl
  · rw [fanout_presence]

theorem broadcast_dbMessages (s : SystemState) (r : Nat) (m : WSMessage) :
    (broadcastToRoom s r m).dbMessages = s.dbMessages := by
  unfold broadcastToRoom
  split
  · rfl
  · rw [fanout_dbMessages]

theorem broadcast_nextMsgID (s : SystemState) (r : Nat) (m : WSMessage) :
    (broadcastToRoom s r m).nextMsgID = s.nextMsgID := by
  unfold broadcastToRoom
  split
  · rfl
  · rw [fanout_nextMsgID]

theorem broadcast_cache (s : SystemState) (r : Nat) (m : WSMessage) :
    (broadcastToRoom s r m).cache = s.cache := by
  unfold broadcastToRoom
  split
  · rfl
  · rw [fanout_cache]

theorem broadcast_clients_subset {s : SystemState} {r : Nat} {m : WSMessage} {x : Nat}
    (hx : x ∈ (broadcastToRoom s r m).clients) : x ∈ s.clients := by
  revert hx
  unfold broadcastToRoom
  split
  · exact id
  · intro hx
    have h2 := fanout_clients_subset hx
    exact h2

theorem broadcast_clients_nodup {s : SystemState} {r : Nat} {m : WSMessage}
    (h : s.clients.Nodup) : (broadcastToRoom s r m).clients.Nodup := by
  unfold broadcastToRoom
  split
  · exact h
  · exact fanout_clients_nodup h

theorem broadcast_clients_mem {s : SystemState} {r : Nat} {m : WSMessage} {cid : Nat}
    (h : cid ∉ listAt s.rooms r) :
    (cid ∈ (broadcastToRoom s r m).clients ↔ cid ∈ s.clients) := by
  unfold broadcastToRoom
  split
  · exact Iff.rfl
  next ms hms =>
    refine fanout_clients_mem ?_
    unfold listAt at h
    rw [hms] at h
    simpa using h

theorem broadcast_rooms_ne {s : SystemState} {r k : Nat} {m : WSMessage}
    (h : k ≠ r) :
    lookupA (broadcastToRoom s r m).rooms k = lookupA s.rooms k := by
  unfold broadcastToRoom
  split
  · rfl
  · rw [fanout_rooms_ne h]

theorem sendOnlineUsers_users (s : SystemState) (cid : Nat) :
    (sendOnlineUsers s cid).users = s.users := by
  unfold sendOnlineUsers
  split
  · rfl
  · split
    · rfl
    · split <;> rfl

theorem sendOnlineUsers_clients (s : SystemState) (cid : Nat) :
    (sendOnlineUsers s cid).clients = s.clients := by
  unfold sendOnlineUsers
  split
  · rfl
  · split
    · rfl
    · split <;> rfl

theorem sendOnlineUsers_rooms (s : SystemState) (cid : Nat) :
    (sendOnlineUsers s cid).rooms = s.rooms := by
  unfold sendOnlineUsers
  split
  · rfl
  · split
    · rfl
    · split <;> rfl

theorem sendOnlineUsers_log (s : SystemState) (cid : Nat) :
    (sendOnlineUsers s cid).log = s.log := by
  unfold sendOnlineUsers
  split
  · rfl
  · split
    · rfl
    · split <;> rfl

theorem sendOnlineUsers_dbMessages (s : SystemState) (cid : Nat) :
    (sendOnlineUsers s cid).dbMessages = s.dbMessages := by
  unfold sendOnlineUsers
  split
  · rfl
  · split
    · rfl
    · split <;> rfl

/-! ### Redis helper field lemmas and emission counting -/

theorem SetUserOnline_clients (s : SystemState) (u r : Nat) :
    (SetUserOnline s u r).clients = s.clients := by
  unfold SetUserOnline; split <;> rfl

theorem SetUserOnline_rooms (s : SystemState) (u r : Nat) :
    (SetUserOnline s u r).rooms = s.rooms := by
  unfold SetUserOnline; split <;> rfl

theorem SetUserOnline_users (s : SystemState) (u r : Nat) :
    (SetUserOnline s u r).users = s.users := by
  unfold SetUserOnline; split <;> rfl

theorem SetUserOnline_conns (s : SystemState) (u r : Nat) :
    (SetUserOnline s u r).conns = s.conns := by
  unfold SetUserOnline; split <;> rfl

theorem SetUserOnline_log (s : SystemState) (u r : Nat) :
    (SetUserOnline s u r).log = s.log := by
  unfold SetUserOnline; split <;> rfl

theorem SetUserOnline_dbUsers (s : SystemState) (u r : Nat) :
    (SetUserOnline s u r).dbUsers = s.dbUsers := by
  unfold SetUserOnline; split <;> rfl

theorem SetUserOffline_clients (s : SystemState) (u : Nat) :
    (SetUserOffline s u).clients = s.clients := by
  unfold SetUserOffline; split <;> rfl

theorem SetUserOffline_rooms (s : SystemState) (u : Nat) :
    (SetUserOffline s u).rooms = s.rooms := by
  unfold SetUserOffline; split <;> rfl

theorem SetUserOffline_log (s : SystemState) (u : Nat) :
    (SetUserOffline s u).log = s.log := by
  unfold SetUserOffline; split <;> rfl

theorem CacheMessage_log (s : SystemState) (r : Nat) (m : ChatRec) :
    (CacheMessage s r m).log = s.log := by
  unfold CacheMessage; split <;> rfl

theorem CacheMessage_dbMessages (s : SystemState) (r : Nat) (m : ChatRec) :
    (CacheMessage s r m).dbMessages = s.dbMessages := by
  unfold CacheMessage; split <;> rfl

theorem CacheMessage_nextMsgID (s : SystemState) (r : Nat) (m : ChatRec) :
    (CacheMessage s r m).nextMsgID = s.nextMsgID := by
  unfold CacheMessage; split <;> rfl

theorem CacheMessage_rooms (s : SystemState) (r : Nat) (m : ChatRec) :
    (CacheMessage s r m).rooms = s.rooms := by
  unfold CacheMessage; split <;> rfl

theorem countUserLeft_cons_left (r u : Nat) (l : List (Nat × WSMessage)) :
    countUserLeft ((r, userLeftMsg r u) :: l) = countUserLeft l + 1 := by
  simp [countUserLeft, userLeftMsg, List.filter_cons]

theorem countUserLeft_cons_other {m : WSMessage} {r : Nat} (l : List (Nat × WSMessage))
    (h : m.type ≠ "user_left") :
    countUserLeft ((r, m) :: l) = countUserLeft l := by
  simp [countUserLeft, List.filter_cons, h]

/-- The collecting fold of GetOnlineUsers is a filter over the entries
followed by a projection to the user ids. -/
theorem foldCollect (l : List (Nat × Nat)) (r : Nat) (acc : List Nat) :
    l.foldl (fun a e => if e.2 == r then a ++ [e.1] else a) acc
      = acc ++ (l.filter (fun e => e.2 == r)).map Prod.fst := by
  induction l generalizing acc with
  | nil => simp
  | cons p t ih =>
    rw [List.foldl_cons, ih, List.filter_cons]
    by_cases hp : p.2 = r
    · simp [hp]
    · simp [hp]

/-! ### Concrete example states for witnesses and counterexamples -/

/-- One registered connection (cid 0, user 7, room 1) with an empty
queue; user 7 exists but holds no membership rows. -/
def exNonMember : SystemState :=
  { clients := [0], rooms := [(1, [0])], users := [(7, 0)],
    conns := [(0, ⟨7, 1, [], false⟩)], redisAvail := false, presence := [],
    cache := [], dbUsers := [7], dbRooms := [1], dbMembers := [],
    dbMessages := [], nextMsgID := 1, log := [] }

/-- One registered connection (cid 0, user 7, room 1) with an empty
queue; user 7 is a member of room 1. -/
def exMember : SystemState :=
  { clients := [0], rooms := [(1, [0])], users := [(7, 0)],
    conns := [(0, ⟨7, 1, [], false⟩)], redisAvail := false, presence := [],
    cache := [], dbUsers := [7], dbRooms := [1], dbMembers := [(1, 7)],
    dbMessages := [], nextMsgID := 1, log := [] }

/-! ### Claim theorems -/

/-- C10: GetOnlineUsers(room_id) returns exactly the user ids whose
cached presence entry carries that room id — entries naming a
different room are excluded — and when the cache client is absent it
returns the empty list with no error. -/
theorem getOnlineUsers_filter (entries : List (Nat × Nat)) (r : Nat) :
    GetOnlineUsers true entries r
        = .ok ((entries.filter (fun e => e.2 == r)).map Prod.fst) ∧
    GetOnlineUsers false entries r = .ok [] := by
  constructor
  · show Except.ok _ = _
    rw [foldCollect]
    simp
  · rfl

/-- C9: a join_room frame whose room id is 0 or names a room absent
from the store changes nothing: the Connection keeps its previous
room_id, no MembershipRecord is inserted, and no presence update is
issued (the whole system state is unchanged). -/
theorem joinRoom_invalid_noop (s : SystemState) (cid rid : Nat)
    (h : rid = 0 ∨ rid ∉ s.dbRooms) :
    handleJoinRoom s cid rid = s := by
  unfold handleJoinRoom
  by_cases h0 : rid = 0
  · simp [h0]
  · rcases h with h | h
    · exact absurd h h0
    · rw [if_neg h0]
      split
      · rfl
      · rw [if_neg h]

/-- Witness for C9 at a concrete input: a join_room frame carrying
room id 0 leaves the concrete one-client state untouched. -/
theorem joinRoom_invalid_noop_witness :
    handleJoinRoom exNonMember 0 0 = exNonMember :=
  joinRoom_invalid_noop exNonMember 0 0 (Or.inl rfl)

/-- C7: a message frame submitted over a connection whose user is not a
member of the connection's current room is a complete no-op: no
ChatRecord is inserted, nothing is cached or broadcast, and the
sender's connection stays registered with an open queue (the whole
system state is unchanged). -/
theorem chat_nonmember_noop (s : SystemState) (cid : Nat) (c : Conn) (content : String)
    (hc : lookupA s.conns cid = some c)
    (hm : (c.roomID, c.userID) ∉ s.dbMembers) :
    handleChatMessage s cid content = s := by
  unfold handleChatMessage
  rw [hc]
  simp [hm]

/-- Witness for C7 at a concrete input: user 7 is not a member of room
1 in exNonMember, so a chat frame leaves the state unchanged. -/
theorem chat_nonmember_noop_witness :
    handleChatMessage exNonMember 0 "hi" = exNonMember :=
  chat_nonmember_noop exNonMember 0 ⟨7, 1, [], false⟩ "hi" (by decide) (by decide)

/-- C8: at the attach endpoint, an absent room_id query parameter
defaults to room 1; a room_id that strconv.ParseUint rejects produces a
bad-request with no Connection constructed or registered (the state is
returned unchanged); otherwise the parsed value becomes the new
Connection's room id and the Connection is registered with it. -/
theorem attach_room_param (s : SystemState) (uid cid : Nat) (p : String) :
    HandleWebSocket s (some uid) "" cid = .attached uid 1 (registerClient s cid uid 1) ∧
    (parseUint32 p = none → p ≠ "" → HandleWebSocket s (some uid) p cid = .badRequest s) ∧
    (∀ n : Nat, parseUint32 p = some n →
      HandleWebSocket s (some uid) p cid = .attached uid n (registerClient s cid uid n)) := by
  refine ⟨?_, ?_, ?_⟩
  · have h1 : parseUint32 "1" = some 1 := by decide
    simp [HandleWebSocket, h1]
  · intro hn hne
    simp [HandleWebSocket, hne, hn]
  · intro n hn
    by_cases hpe : p = ""
    · rw [hpe] at hn
      have : parseUint32 "" = none := by decide
      rw [this] at hn
      cases hn
    · simp [HandleWebSocket, hpe, hn]

/-- Witness for C8 at a concrete input: the malformed room_id "abc" is
rejected with a bad-request and the state is unchanged. -/
theorem attach_room_param_witness :
    HandleWebSocket exNonMember (some 7) "abc" 1 = .badRequest exNonMember :=
  (attach_room_param exNonMember 7 1 "abc").2.1 (by decide) (by decide)

/-- Reduction of unregisterClient for a registered client: the guarded
body applied to the looked-up Client struct. -/
theorem unregisterClient_eq {s : SystemState} {cid : Nat} {c : Conn}
    (hm : cid ∈ s.clients) (hc : lookupA s.conns cid = some c) :
    unregisterClient s cid =
      broadcastToRoom
        (SetUserOffline
          { s with
            clients := s.clients.erase cid,
            rooms := (match lookupA s.rooms c.roomID with
                      | some ms =>
                        if (ms.erase cid).isEmpty then eraseA s.rooms c.roomID
                        else setA s.rooms c.roomID (ms.erase cid)
                      | none => s.rooms),
            users := eraseA s.users c.userID,
            conns := setA s.conns cid { c with closed := true } }
          c.userID)
        c.roomID (userLeftMsg c.roomID c.userID) := by
  unfold unregisterClient
  rw [if_pos hm, hc]

/-- C5: Hub.unregister is idempotent — a second unregister of the same
Connection is a complete no-op (same registry maps, queue closed-ness,
presence, even the same emission log), and across the two calls exactly
one user_left broadcast is emitted. -/
theorem unregister_idempotent (s : SystemState) (cid : Nat) (c : Conn)
    (hnd : s.clients.Nodup) (hc : lookupA s.conns cid = some c) (hm : cid ∈ s.clients) :
    unregisterClient (unregisterClient s cid) cid = unregisterClient s cid ∧
    countUserLeft (unregisterClient s cid).log = countUserLeft s.log + 1 := by
  have hnotmem : cid ∉ (unregisterClient s cid).clients := by
    rw [unregisterClient_eq hm hc]
    intro hx
    have h2 := broadcast_clients_subset hx
    rw [SetUserOffline_clients] at h2
    simp only [] at h2
    exact hnd.not_mem_erase h2
  constructor
  · nth_rewrite 1 [unregisterClient]
    rw [if_neg hnotmem]
  · rw [unregisterClient_eq hm hc, broadcast_log, SetUserOffline_log]
    exact countUserLeft_cons_left c.roomID c.userID _

/-- Witness for C5 at a concrete input: unregistering the only client
of exMember twice equals doing it once, with one user_left emitted. -/
theorem unregister_idempotent_witness :
    unregisterClient (unregisterClient exMember 0) 0 = unregisterClient exMember 0 ∧
    countUserLeft (unregisterClient exMember 0).log = countUserLeft exMember.log + 1 :=
  unregister_idempotent exMember 0 ⟨7, 1, [], false⟩ (by decide) (by decide) (by decide)

/-- Reduction of registerClient to its sequential phases (the lets of
the definition flattened into one record update). -/
theorem registerClient_eq (s : SystemState) (cid uid rid : Nat) :
    registerClient s cid uid rid =
      sendOnlineUsers
        (notifyUserJoined
          (SetUserOnline
            { s with
              conns := setA s.conns cid ⟨uid, rid, [], false⟩,
              clients := if cid ∈ s.clients then s.clients else s.clients ++ [cid],
              rooms := setA s.rooms rid
                (if cid ∈ listAt s.rooms rid then listAt s.rooms rid
                 else listAt s.rooms rid ++ [cid]),
              users := setA s.users uid cid }
            uid rid)
          cid)
        cid := rfl

/-- Reduction of notifyUserJoined once the Client struct is known. -/
theorem notifyUserJoined_eq {s : SystemState} {cid : Nat} {c : Conn}
    (hc : lookupA s.conns cid = some c) :
    notifyUserJoined s cid =
      if c.userID ∈ s.dbUsers then
        broadcastToRoom s c.roomID (userJoinedMsg c.roomID c.userID)
      else s := by
  unfold notifyUserJoined
  rw [hc]

theorem notifyUserJoined_users (s : SystemState) (cid : Nat) :
    (notifyUserJoined s cid).users = s.users := by
  unfold notifyUserJoined
  split
  · rfl
  · split
    · rw [broadcast_users]
    · rfl

/-- An empty hub with no Redis, after user 7 attaches as cid 1 in room 1. -/
def dupBase : SystemState := registerClient (initState false [] [] []) 1 7 1

/-- dupBase after a second attach of the same user 7 as cid 2 in room 2. -/
def dupState : SystemState := registerClient dupBase 2 7 2

/-- C2 counterexample: after a duplicate attach for user 7, the older
connection cid 1 is still registered (it was not unregistered), both
cid 1 and cid 2 are live connections of user 7, and no user_left was
emitted — refuting the claimed unregister-first eviction and the
at-most-one-connection-per-user consequence. -/
theorem register_duplicate_cex :
    (1 ∈ dupState.clients) ∧ (2 ∈ dupState.clients) ∧
    (lookupA dupState.conns 1).map Conn.userID = some 7 ∧
    (lookupA dupState.conns 2).map Conn.userID = some 7 ∧
    lookupA dupState.users 7 = some 2 ∧
    countUserLeft dupState.log = 0 := by
  decide

/-- C2 amended: when register arrives for a user_id already present in
by_user, the Hub simply overwrites by_user[user_id] with the new
Connection; the older Connection stays in all_connections and in its
room's member set, and no user_left is emitted for it, so more than one
active Connection per user_id can remain. -/
theorem register_duplicate_overwrites (s : SystemState) (cid1 cid2 uid rid1 rid2 : Nat)
    (h1 : lookupA s.users uid = some cid1)
    (h2 : cid1 ∈ s.clients) (h3 : cid1 ∈ listAt s.rooms rid1)
    (h4 : cid1 ∉ listAt s.rooms rid2) (hne : rid1 ≠ rid2) (hcid : cid1 ≠ cid2) :
    lookupA (registerClient s cid2 uid rid2).users uid = some cid2 ∧
    cid1 ∈ (registerClient s cid2 uid rid2).clients ∧
    cid1 ∈ listAt (registerClient s cid2 uid rid2).rooms rid1 ∧
    countUserLeft (registerClient s cid2 uid rid2).log = countUserLeft s.log := by
  rw [registerClient_eq]
  set A : SystemState :=
    { s with
      conns := setA s.conns cid2 ⟨uid, rid2, [], false⟩,
      clients := if cid2 ∈ s.clients then s.clients else s.clients ++ [cid2],
      rooms := setA s.rooms rid2
        (if cid2 ∈ listAt s.rooms rid2 then listAt s.rooms rid2
         else listAt s.rooms rid2 ++ [cid2]),
      users := setA s.users uid cid2 } with hA
  have hAusers : A.users = setA s.users uid cid2 := by rw [hA]
  have hAclients : A.clients
      = if cid2 ∈ s.clients then s.clients else s.clients ++ [cid2] := by rw [hA]
  have hArooms : A.rooms = setA s.rooms rid2
      (if cid2 ∈ listAt s.rooms rid2 then listAt s.rooms rid2
       else listAt s.rooms rid2 ++ [cid2]) := by rw [hA]
  have hAconns : A.conns = setA s.conns cid2 ⟨uid, rid2, [], false⟩ := by rw [hA]
  have hAlog : A.log = s.log := by rw [hA]
  have hBconns : lookupA (SetUserOnline A uid rid2).conns cid2
      = some ⟨uid, rid2, [], false⟩ := by
    rw [SetUserOnline_conns, hAconns]
    exact lookupA_setA_self _ _ _
  rw [notifyUserJoined_eq hBconns]
  have hdbeq : (⟨uid, rid2, [], false⟩ : Conn).userID ∈ (SetUserOnline A uid rid2).dbUsers
      ↔ uid ∈ s.dbUsers := by
    rw [SetUserOnline_dbUsers, hA]
  have hclA : cid1 ∈ A.clients := by
    rw [hAclients]
    split
    · exact h2
    · exact List.mem_append_left _ h2
  have hroomA : cid1 ∈ listAt A.rooms rid1 := by
    unfold listAt
    rw [hArooms, lookupA_setA_ne hne]
    exact h3
  have hnotinA : cid1 ∉ listAt (SetUserOnline A uid rid2).rooms rid2 := by
    unfold listAt
    rw [SetUserOnline_rooms, hArooms, lookupA_setA_self]
    simp only [Option.getD_some]
    split
    · exact h4
    · intro hx
      rcases List.mem_append.mp hx with hx | hx
      · exact h4 hx
      · exact hcid (by simpa using hx)
  by_cases hdb : uid ∈ s.dbUsers
  · rw [if_pos ((hdbeq.mpr hdb))]
    refine ⟨?_, ?_, ?_, ?_⟩
    · rw [sendOnlineUsers_users, broadcast_users, SetUserOnline_users, hAusers]
      exact lookupA_setA_self _ _ _
    · rw [sendOnlineUsers_clients]
      refine (broadcast_clients_mem hnotinA).mpr ?_
      rw [SetUserOnline_clients]
      exact hclA
    · rw [sendOnlineUsers_rooms]
      unfold listAt
      rw [broadcast_rooms_ne hne, SetUserOnline_rooms]
      exact hroomA
    · rw [sendOnlineUsers_log, broadcast_log, SetUserOnline_log, hAlog]
      refine countUserLeft_cons_other _ ?_
      simp [userJoinedMsg]
  · rw [if_neg (fun hx => hdb (hdbeq.mp hx))]
    refine ⟨?_, ?_, ?_, ?_⟩
    · rw [sendOnlineUsers_users, SetUserOnline_users, hAusers]
      exact lookupA_setA_self _ _ _
    · rw [sendOnlineUsers_clients, SetUserOnline_clients]
      exact hclA
    · rw [sendOnlineUsers_rooms]
      unfold listAt
      rw [SetUserOnline_rooms]
      exact hroomA
    · rw [sendOnlineUsers_log, SetUserOnline_log, hAlog]

/-- Witness for C2 amended at a concrete input: the second attach of
user 7 overwrites by_user and leaves cid 1 registered in room 1 with no
user_left emission. -/
theorem register_duplicate_overwrites_witness :
    lookupA (registerClient dupBase 2 7 2).users 7 = some 2 ∧
    1 ∈ (registerClient dupBase 2 7 2).clients ∧
    1 ∈ listAt (registerClient dupBase 2 7 2).rooms 1 ∧
    countUserLeft (registerClient dupBase 2 7 2).log = countUserLeft dupBase.log :=
  register_duplicate_overwrites dupBase 1 2 7 1 2 (by decide) (by decide) (by decide)
    (by decide) (by decide) (by decide)

/-- Reduction of handleChatMessage for a member sender. -/
theorem handleChatMessage_eq {s : SystemState} {cid : Nat} {c : Conn} (content : String)
    (hc : lookupA s.conns cid = some c)
    (hm : (c.roomID, c.userID) ∈ s.dbMembers) :
    handleChatMessage s cid content =
      broadcastToRoom
        (CacheMessage
          { s with
            dbMessages := ⟨s.nextMsgID, c.roomID, c.userID, content⟩ :: s.dbMessages,
            nextMsgID := s.nextMsgID + 1 }
          c.roomID ⟨s.nextMsgID, c.roomID, c.userID, content⟩)
        c.roomID (chatMsg c.roomID ⟨s.nextMsgID, c.roomID, c.userID, content⟩) := by
  unfold handleChatMessage
  rw [hc]
  simp only [hm, if_true]

/-- C4 counterexample: user 7 is a member of room 1 in exMember, and a
message frame with empty content (hence empty after trimming) is NOT a
no-op — a ChatRecord with empty content is persisted and a message
broadcast is emitted. -/
theorem empty_content_cex :
    (handleChatMessage exMember 0 "").dbMessages = [⟨1, 1, 7, ""⟩] ∧
    (handleChatMessage exMember 0 "").log = [(1, chatMsg 1 ⟨1, 1, 7, ""⟩)] := by
  decide

/-- C4 amended: message ingestion performs no content validation at
all; a frame whose content is empty after trimming is processed exactly
like any other — for a member sender a ChatRecord carrying exactly the
submitted content is persisted, the id counter advances, and a message
broadcast is emitted.  (The only no-op condition is non-membership.) -/
theorem chat_ingests_any_content (s : SystemState) (cid : Nat) (c : Conn) (content : String)
    (hc : lookupA s.conns cid = some c)
    (hm : (c.roomID, c.userID) ∈ s.dbMembers) :
    (handleChatMessage s cid content).dbMessages
        = ⟨s.nextMsgID, c.roomID, c.userID, content⟩ :: s.dbMessages ∧
    (handleChatMessage s cid content).log
        = (c.roomID, chatMsg c.roomID ⟨s.nextMsgID, c.roomID, c.userID, content⟩) :: s.log ∧
    (handleChatMessage s cid content).nextMsgID = s.nextMsgID + 1 := by
  rw [handleChatMessage_eq content hc hm]
  refine ⟨?_, ?_, ?_⟩
  · rw [broadcast_dbMessages, CacheMessage_dbMessages]
  · rw [broadcast_log, CacheMessage_log]
  · rw [broadcast_nextMsgID, CacheMessage_nextMsgID]

/-- Witness for C4 amended at a concrete input: the empty-content frame
in exMember persists an empty-content record and emits a broadcast. -/
theorem chat_ingests_any_content_witness :
    (handleChatMessage exMember 0 "").dbMessages = ⟨1, 1, 7, ""⟩ :: exMember.dbMessages ∧
    (handleChatMessage exMember 0 "").log
        = (1, chatMsg 1 ⟨1, 1, 7, ""⟩) :: exMember.log ∧
    (handleChatMessage exMember 0 "").nextMsgID = exMember.nextMsgID + 1 :=
  chat_ingests_any_content exMember 0 ⟨7, 1, [], false⟩ "" (by decide) (by decide)

/-- Reduction of tryEnqueue when the send succeeds. -/
theorem tryEnqueue_send_eq {st : SystemState} {cid : Nat} (m : WSMessage) (r : Nat) {c : Conn}
    (hc : lookupA st.conns cid = some c) (hopen : c.closed = false)
    (hlen : c.queue.length < sendCap) :
    tryEnqueue st cid m r
      = { st with conns := setA st.conns cid { c with queue := c.queue ++ [m] } } := by
  unfold tryEnqueue
  split
  next heq =>
    rw [heq] at hc
    cases hc
  next c2 heq =>
    rw [heq] at hc
    injection hc with hc2
    subst hc2
    rw [if_pos ⟨hopen, hlen⟩]

/-- Reduction of tryEnqueue when the queue is full: the default branch
closes the queue and removes the client from h.clients and the room
set. -/
theorem tryEnqueue_evict_eq {st : SystemState} {cid : Nat} (m : WSMessage) (r : Nat) {c : Conn}
    (hc : lookupA st.conns cid = some c) (hfull : sendCap ≤ c.queue.length) :
    tryEnqueue st cid m r
      = { st with
          conns := setA st.conns cid { c with closed := true },
          clients := st.clients.erase cid,
          rooms := (match lookupA st.rooms r with
                    | some ms => setA st.rooms r (ms.erase cid)
                    | none => st.rooms) } := by
  unfold tryEnqueue
  split
  next heq =>
    rw [heq] at hc
    cases hc
  next c2 heq =>
    rw [heq] at hc
    injection hc with hc2
    subst hc2
    rw [if_neg (fun h => absurd h.2 (Nat.not_lt.mpr hfull))]

/-- Two members of room 1: cid 0 (user 7) with a full 256-frame queue
and cid 1 (user 8) with an empty queue. -/
def slowPair : SystemState :=
  { clients := [0, 1], rooms := [(1, [0, 1])], users := [(7, 0), (8, 1)],
    conns := [(0, ⟨7, 1, List.replicate 256 (chatMsg 1 ⟨1, 1, 7, "x"⟩), false⟩),
              (1, ⟨8, 1, [], false⟩)],
    redisAvail := false, presence := [], cache := [], dbUsers := [7, 8],
    dbRooms := [1], dbMembers := [(1, 7), (1, 8)], dbMessages := [], nextMsgID := 2,
    log := [] }

/-- C3 counterexample: broadcasting to room 1 of slowPair evicts the
full-queue recipient cid 0, but no user_left for user 7 is ever
broadcast and its by_user entry survives, refuting the claimed
user_left emission and full registry removal (the other recipient did
receive the frame). -/
theorem broadcast_eviction_cex :
    countUserLeft (broadcastToRoom slowPair 1 (chatMsg 1 ⟨2, 1, 8, "y"⟩)).log = 0 ∧
    lookupA (broadcastToRoom slowPair 1 (chatMsg 1 ⟨2, 1, 8, "y"⟩)).users 7 = some 0 ∧
    (0 ∈ (broadcastToRoom slowPair 1 (chatMsg 1 ⟨2, 1, 8, "y"⟩)).clients → False) ∧
    (lookupA (broadcastToRoom slowPair 1 (chatMsg 1 ⟨2, 1, 8, "y"⟩)).conns 1).map
        (fun c2 => c2.queue.length) = some 1 := by
  decide

/-- C3 amended: during Hub.broadcast, a recipient whose queue is full
at enqueue time has its queue closed and is removed from
all_connections and from the room's member set — but its by_user entry
survives and no user_left is broadcast (the only emission is the
broadcast frame itself) — while enqueues to the other recipients of the
same broadcast proceed unaffected. -/
theorem broadcast_evicts_slow (s : SystemState) (r : Nat) (m : WSMessage) (ms : List Nat)
    (cid cid' : Nat) (c c' : Conn)
    (hrm : lookupA s.rooms r = some ms) (hndms : ms.Nodup) (hndc : s.clients.Nodup)
    (hmem : cid ∈ ms) (hcc : lookupA s.conns cid = some c)
    (hfull : sendCap ≤ c.queue.length)
    (hmem' : cid' ∈ ms) (hne : cid' ≠ cid) (hcc' : lookupA s.conns cid' = some c')
    (hopen : c'.closed = false) (hlen' : c'.queue.length < sendCap) :
    lookupA (broadcastToRoom s r m).conns cid = some { c with closed := true } ∧
    cid ∉ (broadcastToRoom s r m).clients ∧
    cid ∉ listAt (broadcastToRoom s r m).rooms r ∧
    (broadcastToRoom s r m).users = s.users ∧
    (broadcastToRoom s r m).log = (r, m) :: s.log ∧
    lookupA (broadcastToRoom s r m).conns cid' = some { c' with queue := c'.queue ++ [m] } := by
  have hbr : broadcastToRoom s r m = fanout ms { s with log := (r, m) :: s.log } m r := by
    unfold broadcastToRoom
    rw [hrm]
  obtain ⟨l1, l2, hms⟩ := List.append_of_mem hmem
  have hnd2 := hms ▸ hndms
  rcases List.nodup_append.mp hnd2 with ⟨hn1, hn2, hdisj⟩
  have hcid_l1 : cid ∉ l1 := fun hx => hdisj hx (List.mem_cons_self cid l2)
  have hcid_l2 : cid ∉ l2 := (List.nodup_cons.mp hn2).1
  obtain ⟨l1', l2', hms'⟩ := List.append_of_mem hmem'
  have hnd2' := hms' ▸ hndms
  rcases List.nodup_append.mp hnd2' with ⟨hn1', hn2', hdisj'⟩
  have hcid'_l1 : cid' ∉ l1' := fun hx => hdisj' hx (List.mem_cons_self cid' l2')
  have hcid'_l2 : cid' ∉ l2' := (List.nodup_cons.mp hn2').1
  have hsplit : fanout ms { s with log := (r, m) :: s.log } m r
      = fanout l2
          (tryEnqueue (fanout l1 { s with log := (r, m) :: s.log } m r) cid m r) m r := by
    rw [hms, fanout_append, fanout_cons]
  have hsplit' : fanout ms { s with log := (r, m) :: s.log } m r
      = fanout l2'
          (tryEnqueue (fanout l1' { s with log := (r, m) :: s.log } m r) cid' m r) m r := by
    rw [hms', fanout_append, fanout_cons]
  have hc1 : lookupA (fanout l1 { s with log := (r, m) :: s.log } m r).conns cid
      = some c := by
    rw [fanout_conns_ne hcid_l1]
    exact hcc
  have hev := tryEnqueue_evict_eq m r hc1 hfull
  refine ⟨?_, ?_, ?_, ?_, ?_, ?_⟩
  · rw [hbr, hsplit, fanout_conns_ne hcid_l2, hev]
    simp only []
    exact lookupA_setA_self _ _ _
  · rw [hbr, hsplit]
    rw [fanout_clients_mem hcid_l2, hev]
    have hndf : (fanout l1 { s with log := (r, m) :: s.log } m r).clients.Nodup :=
      fanout_clients_nodup hndc
    intro hx
    exact hndf.not_mem_erase hx
  · rw [hbr, hsplit]
    refine fanout_roomsr_notmem ?_
    have hsome : (lookupA (fanout l1 { s with log := (r, m) :: s.log } m r).rooms r).isSome := by
      refine fanout_roomsr_some ?_
      rw [show ({ s with log := (r, m) :: s.log } : SystemState).rooms = s.rooms from rfl, hrm]
      rfl
    obtain ⟨cur, hcur⟩ := Option.isSome_iff_exists.mp hsome
    have hndl : (listAt ({ s with log := (r, m) :: s.log } : SystemState).rooms r).Nodup := by
      unfold listAt
      rw [show ({ s with log := (r, m) :: s.log } : SystemState).rooms = s.rooms from rfl, hrm]
      simpa using hndms
    have h3 : (listAt (fanout l1 { s with log := (r, m) :: s.log } m r).rooms r).Nodup :=
      fanout_roomsr_nodup hndl
    have hcurnd : cur.Nodup := by
      unfold listAt at h3
      rw [hcur] at h3
      simpa using h3
    rw [hev]
    unfold listAt
    simp only [hcur]
    rw [lookupA_setA_self]
    simp only [Option.getD_some]
    exact hcurnd.not_mem_erase
  · rw [hbr, fanout_users]
  · rw [hbr, fanout_log]
  · have hc1' : lookupA (fanout l1' { s with log := (r, m) :: s.log } m r).conns cid'
        = some c' := by
      rw [fanout_conns_ne hcid'_l1]
      exact hcc'
    have hsend := tryEnqueue_send_eq m r hc1' hopen hlen' 
    rw [hbr, hsplit', fanout_conns_ne hcid'_l2, hsend]
    simp only []
    exact lookupA_setA_self _ _ _

/-- Witness for C3 amended at a concrete input: in slowPair, cid 0 is
evicted by the broadcast (queue closed, gone from clients and the room
set), by_user and the log show no user_left, and cid 1 receives the
frame. -/
theorem broadcast_evicts_slow_witness :
    lookupA (broadcastToRoom slowPair 1 (chatMsg 1 ⟨2, 1, 8, "y"⟩)).conns 0
        = some ⟨7, 1, List.replicate 256 (chatMsg 1 ⟨1, 1, 7, "x"⟩), true⟩ ∧
    0 ∉ (broadcastToRoom slowPair 1 (chatMsg 1 ⟨2, 1, 8, "y"⟩)).clients ∧
    0 ∉ listAt (broadcastToRoom slowPair 1 (chatMsg 1 ⟨2, 1, 8, "y"⟩)).rooms 1 ∧
    (broadcastToRoom slowPair 1 (chatMsg 1 ⟨2, 1, 8, "y"⟩)).users = slowPair.users ∧
    (broadcastToRoom slowPair 1 (chatMsg 1 ⟨2, 1, 8, "y"⟩)).log
        = (1, chatMsg 1 ⟨2, 1, 8, "y"⟩) :: slowPair.log ∧
    lookupA (broadcastToRoom slowPair 1 (chatMsg 1 ⟨2, 1, 8, "y"⟩)).conns 1
        = some ⟨8, 1, [chatMsg 1 ⟨2, 1, 8, "y"⟩], false⟩ :=
  broadcast_evicts_slow slowPair 1 (chatMsg 1 ⟨2, 1, 8, "y"⟩) [0, 1] 0 1
    ⟨7, 1, List.replicate 256 (chatMsg 1 ⟨1, 1, 7, "x"⟩), false⟩ ⟨8, 1, [], false⟩
    (by decide) (by decide) (by decide) (by decide) (by decide) (by decide)
    (by decide) (by decide) (by decide) (by decide) (by decide)

/-- Iterated chat frames preserve reachability. -/
theorem reachable_chatN {s : SystemState} (n : Nat) (h : Reachable s) :
    Reachable (chatN n s) := by
  induction n generalizing s with
  | zero => exact h
  | succ k ih => exact ih (h.step (Step.chat s 0 "x"))

/-- A reachable state in which the sole member of room 1 has been
evicted by broadcast: one client registers in room 1 and submits 255
chat frames that its writer never drains. -/
def evictedState : SystemState :=
  chatN 255 (registerClient (initState false [1] [1] [(1, 1)]) 0 1 1)

/-- C6 counterexample: a reachable Hub state in which by_room holds the
empty set for room 1 — the broadcast-time eviction that removed the
room's last member did not delete the room entry. -/
theorem eviction_empty_room_cex :
    Reachable evictedState ∧ lookupA evictedState.rooms 1 = some [] := by
  constructor
  · exact reachable_chatN 255
      (Reachable.step (Reachable.init false [1] [1] [(1, 1)])
        (Step.register (initState false [1] [1] [(1, 1)]) 0 1 1))
  · decide

/-- C6 amended: the unregister path does delete a room entry that its
removal empties, but broadcast-time eviction does not — evicting the
sole member of a room leaves an empty member set behind in by_room, so
the no-empty-rooms invariant is maintained only by unregister. -/
theorem empty_room_eviction_gap (s : SystemState) (cid : Nat) (c : Conn) (m : WSMessage)
    (hnd : (s.rooms.map Prod.fst).Nodup)
    (hm : cid ∈ s.clients) (hc : lookupA s.conns cid = some c)
    (hr : lookupA s.rooms c.roomID = some [cid])
    (hfull : sendCap ≤ c.queue.length) :
    lookupA (unregisterClient s cid).rooms c.roomID = none ∧
    lookupA (broadcastToRoom s c.roomID m).rooms c.roomID = some [] := by
  constructor
  · rw [unregisterClient_eq hm hc]
    unfold broadcastToRoom
    simp only [SetUserOffline_rooms, hr, List.erase_cons_head, List.isEmpty_nil, if_true,
      lookupA_eraseA_self hnd]
  · unfold broadcastToRoom
    have hclog : lookupA ({ s with log := (c.roomID, m) :: s.log } : SystemState).conns cid
        = some c := hc
    simp only [hr]
    rw [fanout_cons, fanout_nil, tryEnqueue_evict_eq m c.roomID hclog hfull]
    simp only [hr, List.erase_cons_head]
    exact lookupA_setA_self _ _ _

/-- One client (cid 0, user 7) alone in room 1 with a full queue. -/
def soloFull : SystemState :=
  { clients := [0], rooms := [(1, [0])], users := [(7, 0)],
    conns := [(0, ⟨7, 1, List.replicate 256 (chatMsg 1 ⟨1, 1, 7, "x"⟩), false⟩)],
    redisAvail := false, presence := [], cache := [], dbUsers := [7], dbRooms := [1],
    dbMembers := [(1, 7)], dbMessages := [], nextMsgID := 2, log := [] }

/-- Witness for C6 amended at a concrete input: unregistering the sole
full-queue client deletes room 1's entry, while evicting it through a
broadcast leaves the entry present and empty. -/
theorem empty_room_eviction_gap_witness :
    lookupA (unregisterClient soloFull 0).rooms 1 = none ∧
    lookupA (broadcastToRoom soloFull 1 (userLeftMsg 1 7)).rooms 1 = some [] :=
  empty_room_eviction_gap soloFull 0
    ⟨7, 1, List.replicate 256 (chatMsg 1 ⟨1, 1, 7, "x"⟩), false⟩
    (userLeftMsg 1 7) (by decide) (by decide) (by decide) (by decide) (by decide)

/-- Hub state after user 1 attaches as cid 0 to room 1 (rooms 1 and 2
exist in the store; user 1 is a member of room 1). -/
def joinPre : SystemState := registerClient (initState false [1] [1, 2] [(1, 1)]) 0 1 1

/-- joinPre after the client sends a join_room frame for room 2. -/
def joinPost : SystemState := handleJoinRoom joinPre 0 2

/-- C1: the registry-consistency invariant is broken by handleJoinRoom —
both states are reachable, the invariant holds before the join_room
frame, and after it the Connection's room_id is 2 while the Hub still
indexes it under room 1 (and has no entry for room 2), so a broadcast
observes a connection whose room_id disagrees with the room set in
which it is indexed. -/
theorem joinRoom_breaks_registry :
    Reachable joinPost ∧
    registryConsistentB joinPre = true ∧
    (lookupA joinPost.conns 0).map Conn.roomID = some 2 ∧
    0 ∈ listAt joinPost.rooms 1 ∧
    lookupA joinPost.rooms 2 = none ∧
    registryConsistentB joinPost = false := by
  refine ⟨?_, by decide, by decide, by decide, by decide, by decide⟩
  exact Reachable.step
    (Reachable.step (Reachable.init false [1] [1, 2] [(1, 1)])
      (Step.register (initState false [1] [1, 2] [(1, 1)]) 0 1 1))
    (Step.join joinPre 0 2)

end ChatRoom
